import Mathlib

/-!
Verification of the core automation logic of the instagram-auto-poster
repository (src/autoposter.py) against its natural-language specification.

The embedding is shallow: each Python method of `InstagramAutoPoster` that the
claims concern is translated into a pure Lean function.  File and network I/O
is made explicit:
* the per-identity JSON ledger (`commented_posts/<user>_commented.json`)
  becomes the `CommentedData` record, passed and returned explicitly;
* `random.choice` / `random.sample` become explicit supplies of indices and
  pre-chosen lists, consumed in program order;
* network outcomes (whether `client.media_comment` succeeds) become explicit
  `Bool` oracles;
* a caught Python exception is encoded by the total function returning the
  value the `except` branch produces (the source catches bare `Exception`).
-/

namespace AutoPoster

/-- Media is the shape of a fetched post that `autoposter.py` reads:
`pk` (platform numeric id, stringified as `str(post.pk)` before storage),
`id` (the media id passed to `media_comment`), `code` (human-visible code),
`taken_at` (`int(post.taken_at.timestamp())`, integer seconds),
`media_type` / `product_type` (the raw classification fields). -/
structure Media where
  pk : Nat
  id : String
  code : String
  taken_at : Int
  media_type : Nat
  product_type : String
deriving DecidableEq, Repr

/-- CommentedData is the per-monitored-identity ledger record stored in
`commented_posts/<username>_commented.json` (see `load_commented_posts`). -/
structure CommentedData where
  last_commented_post_id : Option String
  last_commented_timestamp : Int
  commented_post_ids : List String
deriving DecidableEq, Repr

/-- Default ledger structure returned by `load_commented_posts` when the file
is absent or unreadable (autoposter.py lines 152-156). -/
def defaultCommentedData : CommentedData :=
  { last_commented_post_id := none
    last_commented_timestamp := 0
    commented_post_ids := [] }

/-- Python's `l[-n:]` slice: the last `n` elements of `l`. -/
def takeLast (n : Nat) (l : List α) : List α :=
  l.drop (l.length - n)

/-- Embedding of `mark_post_commented` (autoposter.py lines 167-180): sets the
last-commented id and timestamp, appends `post_id` to `commented_post_ids` if
absent, and truncates the list to its last 100 entries when it exceeds 100.
The load/save I/O around it becomes explicit state passing. -/
def mark_post_commented (data : CommentedData) (post_id : String)
    (post_timestamp : Int) : CommentedData :=
  let ids :=
    if post_id ∈ data.commented_post_ids then data.commented_post_ids
    else data.commented_post_ids ++ [post_id]
  let ids := if ids.length > 100 then takeLast 100 ids else ids
  { last_commented_post_id := some post_id
    last_commented_timestamp := post_timestamp
    commented_post_ids := ids }

/-- Embedding of `get_media_type_name` (autoposter.py lines 182-196). -/
def get_media_type_name (media : Media) : String :=
  if media.media_type = 1 then "photo"
  else if media.media_type = 2 then
    if media.product_type = "igtv" then "igtv"
    else if media.product_type = "clips" then "reel"
    else "video"
  else if media.media_type = 8 then "album"
  else "unknown"

/-- Embedding of `should_comment_on_media` (autoposter.py lines 198-201);
`allowed` is `self.config.config.allowed_media_types`. -/
def should_comment_on_media (allowed : List String) (media : Media) : Bool :=
  decide (get_media_type_name media ∈ allowed)

/-- Embedding of `get_recent_posts` (autoposter.py lines 217-229).  The
`monitoring_client` guard becomes a Bool; the outcome of the network call
`user_medias_v1` is an explicit `Except` (error = the raised exception, which
the source catches, logs, and converts to `[]`). -/
def get_recent_posts (has_monitoring_client : Bool)
    (fetch_result : Except String (List Media)) : List Media :=
  if !has_monitoring_client then []
  else
    match fetch_result with
    | .ok medias => medias
    | .error _ => []

/-- Embedding of the selection logic of `check_new_posts`
(autoposter.py lines 241-282), given the already-fetched `recent_posts` and
the already-loaded ledger record.  First-run branch (last id `none`): the
`for ... break` loop selects the first post passing the media-type filter as
a singleton.  Steady-state branch: the loop appends, in fetch order, every
post whose stringified pk is not in `commented_post_ids`, whose media type is
allowed, and whose timestamp is strictly greater than
`last_commented_timestamp`. -/
def check_new_posts (allowed : List String) (commented_data : CommentedData)
    (recent_posts : List Media) : List Media :=
  match commented_data.last_commented_post_id with
  | none =>
    match recent_posts.find? (fun post => should_comment_on_media allowed post) with
    | some post => [post]
    | none => []
  | some _ =>
    recent_posts.filter (fun post =>
      !(decide (toString post.pk ∈ commented_data.commented_post_ids)) &&
      should_comment_on_media allowed post &&
      decide (post.taken_at > commented_data.last_commented_timestamp))

/-- Embedding of `select_random_comment` (autoposter.py lines 284-286):
`random.choice(self.config.config.predefined_comments)`.  The random draw is
an explicit index `r`; `random.choice` on an empty list raises `IndexError`,
encoded as `none`. -/
def select_random_comment (predefined_comments : List String) (r : Nat) :
    Option String :=
  predefined_comments[r % predefined_comments.length]?

/-- Observable events of one `process_new_post` run, in program order:
the actual `media_comment` network call (with the comment text it used), the
two Telegram notifications, and the ledger update `mark_post_commented`. -/
inductive Event where
  | commentCall (media_id : String) (comment_text : String) (username : String)
  | notifySuccess (main_account : String) (post_code : String)
      (media_type : String) (comment : String) (sub_account : String)
  | notifyFailure (main_account : String) (post_code : String)
      (media_type : String) (error : String) (sub_account : String)
  | markCommented (username : String) (post_id : String) (post_timestamp : Int)
deriving DecidableEq, Repr

/-- Event.isMark recognises a ledger-update event. -/
def Event.isMark : Event → Bool
  | .markCommented _ _ _ => true
  | _ => false

/-- Event.isNotify recognises a Telegram comment notification (success or
failure). -/
def Event.isNotify : Event → Bool
  | .notifySuccess _ _ _ _ _ => true
  | .notifyFailure _ _ _ _ _ => true
  | _ => false

/-- Embedding of `comment_on_post` (autoposter.py lines 288-307): returns the
Bool result together with the observable events.  `sub_clients` is the list
of logged-in sub-account usernames; `r` is the random index consumed by the
internal `select_random_comment`; `net_ok` is whether the external
`client.media_comment` call succeeds.  When `select_random_comment` raises
(comment pool empty, `none`), and when `media_comment` raises, the `except`
branch returns `False`; neither exception escapes. -/
def comment_on_post (sub_clients : List String)
    (predefined_comments : List String) (media_id : String) (username : String)
    (r : Nat) (net_ok : Bool) : Bool × List Event :=
  if username ∉ sub_clients then (false, [])
  else
    match select_random_comment predefined_comments r with
    | none => (false, [])
    | some comment_text =>
      (net_ok, [Event.commentCall media_id comment_text username])

/-- Attempt bundles the external inputs of one loop iteration of
`process_new_post`: the sampled sub-account username, the random index `r1`
consumed by `comment_on_post`'s `select_random_comment`, whether the network
comment call succeeds, and the random index `r2` consumed by the success
notification's extra `select_random_comment()` call. -/
structure Attempt where
  username : String
  r1 : Nat
  net_ok : Bool
  r2 : Nat
deriving DecidableEq, Repr

/-- Embedding of the per-account loop of `process_new_post`
(autoposter.py lines 334-361): returns `commented_successfully` and the
events emitted, in order.  On success the notification's comment text is a
fresh `select_random_comment()` draw (index `r2`), independent of the text
`comment_on_post` actually posted. -/
def process_attempts (sub_clients : List String)
    (predefined_comments : List String) (media_id : String)
    (main_account_username : String) (post_code : String) (media_type : String) :
    List Attempt → Bool × List Event
  | [] => (false, [])
  | a :: rest =>
    let res := comment_on_post sub_clients predefined_comments media_id
      a.username a.r1 a.net_ok
    let notif :=
      if res.1 then
        match select_random_comment predefined_comments a.r2 with
        | some c =>
          [Event.notifySuccess main_account_username post_code media_type c
            a.username]
        | none => []
      else
        [Event.notifyFailure main_account_username post_code media_type
          "Comment posting failed" a.username]
    let tail := process_attempts sub_clients predefined_comments media_id
      main_account_username post_code media_type rest
    (res.1 || tail.1, res.2 ++ notif ++ tail.2)

/-- Embedding of `process_new_post` (autoposter.py lines 309-365).
`enabled_subs` is the list of usernames enabled in
`self.config.config.sub_accounts`; `available_sub_accounts` is computed as in
lines 317-321; `attempts` is the `random.sample` of sub accounts together
with each iteration's random draws and network outcome.  The post is marked
commented once, after the loop, iff `commented_successfully`. -/
def process_new_post (sub_clients : List String) (enabled_subs : List String)
    (predefined_comments : List String) (post : Media)
    (main_account_username : String) (attempts : List Attempt) : List Event :=
  let media_id := post.id
  let post_timestamp := post.taken_at
  let media_type := get_media_type_name post
  let available_sub_accounts :=
    sub_clients.filter (fun username => decide (username ∈ enabled_subs))
  if available_sub_accounts = [] then []
  else
    let res := process_attempts sub_clients predefined_comments media_id
      main_account_username post.code media_type attempts
    res.2 ++
      (if res.1 then
        [Event.markCommented main_account_username (toString post.pk)
          post_timestamp]
       else [])

/-- The fold of `mark_post_commented` over a finite sequence of
`(post_id, post_timestamp)` calls, starting from the default empty ledger
record: exactly the states the program itself produces for one identity. -/
def markFold (calls : List (String × Int)) : CommentedData :=
  calls.foldl (fun d c => mark_post_commented d c.1 c.2) defaultCommentedData

/-- The sequence of append events produced by a sequence of
`mark_post_commented` calls: an id is appended exactly when it is absent from
the current `commented_post_ids`, which (by `markFold_ids_eq`) is the last-100
window of the append events so far. -/
def appendEvents (calls : List (String × Int)) : List String :=
  calls.foldl
    (fun evs c => if c.1 ∈ takeLast 100 evs then evs else evs ++ [c.1]) []

/-- Example photo post (pk 5, timestamp 1200) used in concrete witnesses. -/
def examplePost5 : Media :=
  { pk := 5, id := "5_1", code := "C5", taken_at := 1200, media_type := 1
    product_type := "" }

/-- Example photo post (pk 4, timestamp 1100) used in concrete witnesses. -/
def examplePost4 : Media :=
  { pk := 4, id := "4_1", code := "C4", taken_at := 1100, media_type := 1
    product_type := "" }

/-- Example plain video post (pk 2, timestamp 1300) used in concrete
witnesses. -/
def exampleVideoPost : Media :=
  { pk := 2, id := "2_1", code := "C2v", taken_at := 1300, media_type := 2
    product_type := "" }

/-- Example steady-state ledger record: last commented post "1" at
timestamp 1000, no recent ids. -/
def exampleLedger : CommentedData :=
  { last_commented_post_id := some "1", last_commented_timestamp := 1000
    commented_post_ids := [] }

/-- Example steady-state ledger record whose recent-id list already contains
post id "5". -/
def exampleLedgerDup : CommentedData :=
  { last_commented_post_id := some "1", last_commented_timestamp := 1000
    commented_post_ids := ["5"] }

section TakeLastLemmas

theorem takeLast_of_length_le {α : Type} (n : Nat) (l : List α)
    (h : l.length ≤ n) : takeLast n l = l := by
  unfold takeLast
  have : l.length - n = 0 := by omega
  rw [this, List.drop_zero]

theorem length_takeLast_le {α : Type} (n : Nat) (l : List α) :
    (takeLast n l).length ≤ n := by
  unfold takeLast
  rw [List.length_drop]
  omega

theorem takeLast_append_singleton {α : Type} (n : Nat) (hn : 1 ≤ n)
    (l : List α) (x : α) :
    takeLast n (l ++ [x]) = takeLast (n - 1) l ++ [x] := by
  unfold takeLast
  have h1 : (l ++ [x]).length - n ≤ l.length := by
    rw [List.length_append, List.length_singleton]; omega
  rw [List.drop_append_of_le_length h1]
  have h2 : (l ++ [x]).length - n = l.length - (n - 1) := by
    rw [List.length_append, List.length_singleton]; omega
  rw [h2]

theorem takeLast_takeLast {α : Type} (m n : Nat) (h : m ≤ n) (l : List α) :
    takeLast m (takeLast n l) = takeLast m l := by
  unfold takeLast
  rw [List.drop_drop, List.length_drop]
  congr 1
  omega

theorem takeLast_window_step {α : Type} (l : List α) (x : α) :
    takeLast 100 (takeLast 100 l ++ [x]) = takeLast 100 (l ++ [x]) := by
  rw [takeLast_append_singleton 100 (by omega), takeLast_append_singleton 100 (by omega),
    takeLast_takeLast 99 100 (by omega)]

theorem self_mem_takeLast_append {α : Type} (n : Nat) (hn : 1 ≤ n)
    (l : List α) (x : α) : x ∈ takeLast n (l ++ [x]) := by
  rw [takeLast_append_singleton n hn]
  exact List.mem_append_right _ (List.mem_singleton.mpr rfl)

end TakeLastLemmas

section MarkLemmas

theorem mark_ids_of_mem (d : CommentedData) (pid : String) (t : Int)
    (hmem : pid ∈ d.commented_post_ids)
    (hlen : d.commented_post_ids.length ≤ 100) :
    (mark_post_commented d pid t).commented_post_ids = d.commented_post_ids := by
  simp only [mark_post_commented, if_pos hmem]
  rw [if_neg (by omega)]

theorem mark_ids_of_not_mem (d : CommentedData) (pid : String) (t : Int)
    (hmem : pid ∉ d.commented_post_ids) :
    (mark_post_commented d pid t).commented_post_ids
      = takeLast 100 (d.commented_post_ids ++ [pid]) := by
  simp only [mark_post_commented, if_neg hmem]
  by_cases h : (d.commented_post_ids ++ [pid]).length > 100
  · rw [if_pos h]
  · rw [if_neg h, takeLast_of_length_le _ _ (by omega)]

/-- Generalised window invariant: if the current `commented_post_ids` is the
last-100 window of an append-event history, one `mark_post_commented` call
preserves this, with the history extended by the append the call performs. -/
theorem mark_window_step (d : CommentedData) (evs : List String)
    (hinv : d.commented_post_ids = takeLast 100 evs) (pid : String) (t : Int) :
    (mark_post_commented d pid t).commented_post_ids
      = takeLast 100 (if pid ∈ takeLast 100 evs then evs else evs ++ [pid]) := by
  by_cases hmem : pid ∈ d.commented_post_ids
  · rw [mark_ids_of_mem d pid t hmem
      (hinv ▸ length_takeLast_le 100 evs), hinv]
    rw [if_pos (hinv ▸ hmem)]
  · rw [mark_ids_of_not_mem d pid t hmem, hinv]
    rw [if_neg (fun h => hmem (hinv ▸ h))]
    exact takeLast_window_step evs pid

theorem markFold_window :
    ∀ (calls : List (String × Int)) (d : CommentedData) (evs : List String),
      d.commented_post_ids = takeLast 100 evs →
      (calls.foldl (fun d c => mark_post_commented d c.1 c.2) d).commented_post_ids
        = takeLast 100 (calls.foldl
            (fun evs c => if c.1 ∈ takeLast 100 evs then evs else evs ++ [c.1])
            evs)
  | [], _, _, hinv => hinv
  | c :: rest, d, evs, hinv => by
    simp only [List.foldl_cons]
    exact markFold_window rest _ _ (mark_window_step d evs hinv c.1 c.2)

theorem markFold_ids_eq (calls : List (String × Int)) :
    (markFold calls).commented_post_ids = takeLast 100 (appendEvents calls) :=
  markFold_window calls defaultCommentedData [] rfl

theorem markFold_length_le (calls : List (String × Int)) :
    (markFold calls).commented_post_ids.length ≤ 100 := by
  rw [markFold_ids_eq]
  exact length_takeLast_le 100 (appendEvents calls)

theorem mark_mem_self (d : CommentedData) (pid : String) (t : Int)
    (hlen : d.commented_post_ids.length ≤ 100) :
    pid ∈ (mark_post_commented d pid t).commented_post_ids := by
  by_cases hmem : pid ∈ d.commented_post_ids
  · rw [mark_ids_of_mem d pid t hmem hlen]; exact hmem
  · rw [mark_ids_of_not_mem d pid t hmem]
    exact self_mem_takeLast_append 100 (by omega) _ _

theorem mark_length_le (d : CommentedData) (pid : String) (t : Int)
    (hlen : d.commented_post_ids.length ≤ 100) :
    (mark_post_commented d pid t).commented_post_ids.length ≤ 100 := by
  by_cases hmem : pid ∈ d.commented_post_ids
  · rw [mark_ids_of_mem d pid t hmem hlen]; exact hlen
  · rw [mark_ids_of_not_mem d pid t hmem]
    exact length_takeLast_le 100 _

/-- Idempotence of `mark_post_commented` on any record whose id list respects
the 100-entry cap. -/
theorem mark_idem_of_length_le (d : CommentedData) (pid : String) (t : Int)
    (hlen : d.commented_post_ids.length ≤ 100) :
    mark_post_commented (mark_post_commented d pid t) pid t
      = mark_post_commented d pid t := by
  have hmem1 := mark_mem_self d pid t hlen
  have hlen1 := mark_length_le d pid t hlen
  calc mark_post_commented (mark_post_commented d pid t) pid t
      = CommentedData.mk (some pid) t
          ((mark_post_commented (mark_post_commented d pid t) pid t).commented_post_ids) := rfl
    _ = CommentedData.mk (some pid) t
          ((mark_post_commented d pid t).commented_post_ids) := by
        rw [mark_ids_of_mem _ pid t hmem1 hlen1]
    _ = mark_post_commented d pid t := rfl

end MarkLemmas

section SelectorLemmas

theorem check_new_posts_first_run (allowed : List String) (d : CommentedData)
    (posts : List Media) (hnone : d.last_commented_post_id = none) :
    check_new_posts allowed d posts =
      match posts.find? (fun post => should_comment_on_media allowed post) with
      | some post => [post]
      | none => [] := by
  unfold check_new_posts
  rw [hnone]

theorem check_new_posts_steady (allowed : List String) (d : CommentedData)
    (posts : List Media) (pid0 : String)
    (hsome : d.last_commented_post_id = some pid0) :
    check_new_posts allowed d posts =
      posts.filter (fun post =>
        !(decide (toString post.pk ∈ d.commented_post_ids)) &&
        should_comment_on_media allowed post &&
        decide (post.taken_at > d.last_commented_timestamp)) := by
  unfold check_new_posts
  rw [hsome]

end SelectorLemmas

section DispatcherLemmas

theorem select_random_comment_of_ne_nil (pool : List String) (r : Nat)
    (h : pool ≠ []) : ∃ c, select_random_comment pool r = some c := by
  unfold select_random_comment
  have hlen : 0 < pool.length := List.length_pos.mpr h
  have hlt : r % pool.length < pool.length := Nat.mod_lt _ hlen
  exact ⟨pool[r % pool.length], List.getElem?_eq_getElem hlt⟩

theorem select_random_comment_nil (r : Nat) :
    select_random_comment [] r = none := rfl

theorem comment_on_post_empty_pool (sub_clients : List String)
    (media_id username : String) (r : Nat) (net_ok : Bool) :
    (comment_on_post sub_clients [] media_id username r net_ok).1 = false := by
  unfold comment_on_post
  split
  · rfl
  · rfl

theorem comment_on_post_pool_ne_nil (sub_clients pool : List String)
    (media_id username : String) (r : Nat) (net_ok : Bool)
    (h : (comment_on_post sub_clients pool media_id username r net_ok).1 = true) :
    pool ≠ [] := by
  intro hnil
  subst hnil
  rw [comment_on_post_empty_pool] at h
  exact Bool.false_ne_true h

theorem comment_on_post_events_no_mark (sub_clients pool : List String)
    (media_id username : String) (r : Nat) (net_ok : Bool) :
    ∀ e ∈ (comment_on_post sub_clients pool media_id username r net_ok).2,
      e.isMark = false := by
  unfold comment_on_post
  split
  · intro e he; exact absurd he (List.not_mem_nil e)
  · cases hsel : select_random_comment pool r with
    | none => intro e he; exact absurd he (List.not_mem_nil e)
    | some c =>
      intro e he
      rw [List.mem_singleton] at he
      rw [he]
      rfl

theorem comment_on_post_events_no_notify (sub_clients pool : List String)
    (media_id username : String) (r : Nat) (net_ok : Bool) :
    (comment_on_post sub_clients pool media_id username r net_ok).2.filter
      Event.isNotify = [] := by
  unfold comment_on_post
  split
  · rfl
  · cases hsel : select_random_comment pool r with
    | none => rfl
    | some c => rfl

theorem process_attempts_fst (sub_clients pool : List String)
    (media_id main code mt : String) :
    ∀ attempts : List Attempt,
      (process_attempts sub_clients pool media_id main code mt attempts).1
        = attempts.any (fun a =>
            (comment_on_post sub_clients pool media_id a.username a.r1
              a.net_ok).1)
  | [] => rfl
  | a :: rest => by
    simp only [process_attempts, List.any_cons]
    rw [process_attempts_fst sub_clients pool media_id main code mt rest]

theorem process_attempts_no_mark (sub_clients pool : List String)
    (media_id main code mt : String) :
    ∀ (attempts : List Attempt),
      ∀ e ∈ (process_attempts sub_clients pool media_id main code mt
        attempts).2, e.isMark = false
  | [] => by intro e he; exact absurd he (List.not_mem_nil e)
  | a :: rest => by
    intro e he
    simp only [process_attempts, List.mem_append] at he
    rcases he with (he | he) | he
    · exact comment_on_post_events_no_mark sub_clients pool media_id
        a.username a.r1 a.net_ok e he
    · revert he
      split
      · split
        · intro he; rw [List.mem_singleton] at he; rw [he]; rfl
        · intro he; exact absurd he (List.not_mem_nil e)
      · intro he; rw [List.mem_singleton] at he; rw [he]; rfl
    · exact process_attempts_no_mark sub_clients pool media_id main code mt
        rest e he

theorem process_attempts_notify (sub_clients pool : List String)
    (media_id main code mt : String) :
    ∀ attempts : List Attempt,
      (process_attempts sub_clients pool media_id main code mt
          attempts).2.filter Event.isNotify
        = attempts.map (fun a =>
            if (comment_on_post sub_clients pool media_id a.username a.r1
                a.net_ok).1 then
              Event.notifySuccess main code mt
                ((select_random_comment pool a.r2).getD "") a.username
            else
              Event.notifyFailure main code mt "Comment posting failed"
                a.username)
  | [] => rfl
  | a :: rest => by
    simp only [process_attempts, List.map_cons, List.filter_append]
    rw [process_attempts_notify sub_clients pool media_id main code mt rest,
      comment_on_post_events_no_notify]
    by_cases hfst : (comment_on_post sub_clients pool media_id a.username a.r1
        a.net_ok).1 = true
    · obtain ⟨c, hc⟩ := select_random_comment_of_ne_nil pool a.r2
        (comment_on_post_pool_ne_nil sub_clients pool media_id a.username a.r1
          a.net_ok hfst)
      rw [if_pos hfst, if_pos hfst, hc]
      rfl
    · rw [if_neg hfst, if_neg hfst]
      rfl

theorem process_new_post_eq (sub_clients enabled_subs pool : List String)
    (post : Media) (main : String) (attempts : List Attempt) :
    process_new_post sub_clients enabled_subs pool post main attempts
      = if sub_clients.filter (fun username => decide (username ∈ enabled_subs))
            = [] then []
        else
          (process_attempts sub_clients pool post.id main post.code
              (get_media_type_name post) attempts).2 ++
            (if (process_attempts sub_clients pool post.id main post.code
                (get_media_type_name post) attempts).1 then
              [Event.markCommented main (toString post.pk) post.taken_at]
            else []) := rfl

end DispatcherLemmas

/-- Claim C1 (counterexample): the claimed monotonicity of
`last_commented_timestamp` fails for the mark sequence the Dispatcher itself
performs.  With ledger `exampleLedger` (last timestamp 1000), the Selector
returns the newest-first batch `[examplePost5, examplePost4]` (timestamps
1200 and 1100); the Dispatcher processes it in that order, so on success it
calls `mark_post_commented` with timestamp 1200 and then 1100, and the stored
`last_commented_timestamp` strictly decreases at the second call. -/
theorem C1_counterexample :
    check_new_posts ["photo"] exampleLedger [examplePost5, examplePost4]
      = [examplePost5, examplePost4] ∧
    (mark_post_commented (mark_post_commented exampleLedger
          (toString examplePost5.pk) examplePost5.taken_at)
        (toString examplePost4.pk) examplePost4.taken_at).last_commented_timestamp
      < (mark_post_commented exampleLedger
          (toString examplePost5.pk) examplePost5.taken_at).last_commented_timestamp := by
  constructor
  · rfl
  · decide

/-- Claim C1 (amended): each successful `mark_post_commented` call stores
exactly the timestamp it was called with, so `last_commented_timestamp` is
non-decreasing precisely across calls whose timestamp arguments are
non-decreasing (for example, across cycles that each mark a single post); it
can decrease when two posts of one newest-first batch are marked in the same
cycle. -/
theorem C1_amended_monotone (d : CommentedData) (post_id : String) (t : Int)
    (h : d.last_commented_timestamp ≤ t) :
    (mark_post_commented d post_id t).last_commented_timestamp = t ∧
    d.last_commented_timestamp
      ≤ (mark_post_commented d post_id t).last_commented_timestamp :=
  ⟨rfl, h⟩

/-- Witness for C1 (amended) at a concrete input. -/
theorem C1_amended_witness :
    defaultCommentedData.last_commented_timestamp ≤ 7 ∧
    ((mark_post_commented defaultCommentedData "9" 7).last_commented_timestamp = 7 ∧
      defaultCommentedData.last_commented_timestamp
        ≤ (mark_post_commented defaultCommentedData "9" 7).last_commented_timestamp) :=
  ⟨by decide, C1_amended_monotone defaultCommentedData "9" 7 (by decide)⟩

/-- Claim C2: on a first run (`last_commented_post_id = none`), the Selector
returns exactly the first fetched post passing the media-type filter, and
returns nothing when no fetched post passes the filter. -/
theorem C2_first_run_selection (allowed : List String) (d : CommentedData)
    (l1 l2 : List Media) (p : Media)
    (hnone : d.last_commented_post_id = none)
    (hp : should_comment_on_media allowed p = true)
    (hl1 : ∀ q ∈ l1, should_comment_on_media allowed q = false) :
    check_new_posts allowed d (l1 ++ p :: l2) = [p] ∧
    ∀ posts : List Media,
      (∀ q ∈ posts, should_comment_on_media allowed q = false) →
      check_new_posts allowed d posts = [] := by
  constructor
  · rw [check_new_posts_first_run allowed d _ hnone]
    have hfind : (l1 ++ p :: l2).find?
        (fun post => should_comment_on_media allowed post) = some p := by
      induction l1 with
      | nil =>
        simpa using List.find?_cons_of_pos l2 hp
      | cons q t ih =>
        have hq : ¬ (should_comment_on_media allowed q = true) := by
          rw [hl1 q (List.mem_cons_self q t)]; simp
        rw [List.cons_append, List.find?_cons_of_neg _ hq]
        exact ih (fun r hr => hl1 r (List.mem_cons_of_mem q hr))
    rw [hfind]
  · intro posts hall
    rw [check_new_posts_first_run allowed d posts hnone]
    have hfind : posts.find?
        (fun post => should_comment_on_media allowed post) = none :=
      List.find?_eq_none.mpr (fun x hx => by rw [hall x hx]; simp)
    rw [hfind]

/-- Witness for C2 at a concrete input: a video post precedes a photo post,
only photos are allowed, and the first matching (photo) post is selected. -/
theorem C2_first_run_witness :
    check_new_posts ["photo"] defaultCommentedData
      ([exampleVideoPost] ++ examplePost5 :: []) = [examplePost5] :=
  (C2_first_run_selection ["photo"] defaultCommentedData [exampleVideoPost] []
    examplePost5 rfl (by decide) (by decide)).1

/-- Claim C3: in steady state, for every fetched post not already in
`commented_post_ids` and passing the media-type filter, the post is selected
iff its timestamp is strictly greater than `last_commented_timestamp`; and the
selection is a sublist of the fetched batch, preserving fetch order. -/
theorem C3_steady_threshold (allowed : List String) (d : CommentedData)
    (posts : List Media) (pid0 : String)
    (hsome : d.last_commented_post_id = some pid0) :
    (∀ p ∈ posts,
        toString p.pk ∉ d.commented_post_ids →
        should_comment_on_media allowed p = true →
        (p ∈ check_new_posts allowed d posts ↔
          d.last_commented_timestamp < p.taken_at)) ∧
    (check_new_posts allowed d posts).Sublist posts := by
  rw [check_new_posts_steady allowed d posts pid0 hsome]
  refine ⟨?_, List.filter_sublist _⟩
  intro p hp hnotin hallow
  rw [List.mem_filter]
  constructor
  · rintro ⟨-, hpred⟩
    simp only [Bool.and_eq_true, Bool.not_eq_true', decide_eq_false_iff_not,
      decide_eq_true_eq, gt_iff_lt] at hpred
    exact hpred.2
  · intro hts
    refine ⟨hp, ?_⟩
    simp only [Bool.and_eq_true, Bool.not_eq_true', decide_eq_false_iff_not,
      decide_eq_true_eq, gt_iff_lt]
    exact ⟨⟨hnotin, hallow⟩, hts⟩

/-- Witness for C3 at a concrete input. -/
theorem C3_steady_witness :
    examplePost5 ∈ check_new_posts ["photo"] exampleLedger [examplePost5] ↔
      exampleLedger.last_commented_timestamp < examplePost5.taken_at :=
  (C3_steady_threshold ["photo"] exampleLedger [examplePost5] "1" rfl).1
    examplePost5 (by decide) (by decide) (by decide)

/-- Claim C4: in steady state, a post whose stringified pk is in
`commented_post_ids` is never selected, regardless of its timestamp. -/
theorem C4_steady_dedup (allowed : List String) (d : CommentedData)
    (posts : List Media) (pid0 : String) (p : Media)
    (hsome : d.last_commented_post_id = some pid0)
    (hin : toString p.pk ∈ d.commented_post_ids) :
    p ∉ check_new_posts allowed d posts := by
  rw [check_new_posts_steady allowed d posts pid0 hsome]
  intro hmem
  rw [List.mem_filter] at hmem
  obtain ⟨-, hpred⟩ := hmem
  simp only [Bool.and_eq_true, Bool.not_eq_true', decide_eq_false_iff_not] at hpred
  exact hpred.1.1 hin

/-- Witness for C4 at a concrete input: `examplePost5` has timestamp
1200 > 1000 yet its id "5" is in `commented_post_ids`, so it is not
selected. -/
theorem C4_steady_dedup_witness :
    examplePost5 ∉
      check_new_posts ["photo"] exampleLedgerDup [examplePost5, examplePost4] :=
  C4_steady_dedup ["photo"] exampleLedgerDup [examplePost5, examplePost4] "1"
    examplePost5 rfl (by decide)

/-- Claim C5: after any finite sequence of `mark_post_commented` calls
starting from the empty ledger record, `commented_post_ids` has at most 100
entries and equals exactly the last-100 window of the append-event sequence:
the 100 most-recently-appended ids, oldest evicted first. -/
theorem C5_ledger_cap (calls : List (String × Int)) :
    (markFold calls).commented_post_ids.length ≤ 100 ∧
    (markFold calls).commented_post_ids = takeLast 100 (appendEvents calls) :=
  ⟨markFold_length_le calls, markFold_ids_eq calls⟩

/-- Claim C9: `mark_post_commented` is idempotent on every ledger record the
program can reach (any fold of mark calls from the empty record): calling it
twice in a row with the same `(post_id, post_timestamp)` leaves the same
record as calling it once; in particular a re-marked id is neither duplicated
nor moved. -/
theorem C9_mark_idempotent (calls : List (String × Int)) (post_id : String)
    (t : Int) :
    mark_post_commented (mark_post_commented (markFold calls) post_id t) post_id t
      = mark_post_commented (markFold calls) post_id t :=
  mark_idem_of_length_le (markFold calls) post_id t (markFold_length_le calls)

/-- Claim C6: for every dispatched post, the ledger update event is emitted at
most once, strictly after every per-attempt event, and exactly when at least
one comment action succeeded; when every action fails no ledger update occurs.
The hypothesis states that the sampled attempts come from the available
sub-account pool, as `random.sample` guarantees. -/
theorem C6_mark_once_after_attempts (sub_clients enabled_subs predefined_comments : List String)
    (post : Media) (main : String) (attempts : List Attempt)
    (hsample : ∀ a ∈ attempts,
      a.username ∈ sub_clients.filter (fun u => decide (u ∈ enabled_subs))) :
    ∃ pre : List Event,
      (∀ e ∈ pre, e.isMark = false) ∧
      process_new_post sub_clients enabled_subs predefined_comments post main
          attempts
        = pre ++
          (if attempts.any (fun a =>
              (comment_on_post sub_clients predefined_comments post.id
                a.username a.r1 a.net_ok).1)
           then [Event.markCommented main (toString post.pk) post.taken_at]
           else []) := by
  rw [process_new_post_eq]
  split
  · rename_i havail
    have hatt : attempts = [] := by
      cases attempts with
      | nil => rfl
      | cons a t =>
        have := hsample a (List.mem_cons_self a t)
        rw [havail] at this
        exact absurd this (List.not_mem_nil _)
    subst hatt
    exact ⟨[], fun e he => absurd he (List.not_mem_nil e), rfl⟩
  · refine ⟨(process_attempts sub_clients predefined_comments post.id main
      post.code (get_media_type_name post) attempts).2,
      process_attempts_no_mark sub_clients predefined_comments post.id main
        post.code (get_media_type_name post) attempts, ?_⟩
    rw [process_attempts_fst sub_clients predefined_comments post.id main
      post.code (get_media_type_name post) attempts]

/-- Witness for C6 at a concrete input: one successful attempt, so exactly one
ledger-update event, placed last. -/
theorem C6_witness :
    (process_new_post ["sub1"] ["sub1"] ["hello"] examplePost5 "main"
        [Attempt.mk "sub1" 0 true 0]).filter Event.isMark
      = [Event.markCommented "main" "5" 1200] := by
  obtain ⟨pre, hpre, heq⟩ := C6_mark_once_after_attempts ["sub1"] ["sub1"]
    ["hello"] examplePost5 "main" [Attempt.mk "sub1" 0 true 0] (by decide)
  rw [heq, List.filter_append]
  have h1 : pre.filter Event.isMark = [] :=
    List.filter_eq_nil_iff.mpr (fun e he => by rw [hpre e he]; simp)
  have h2 : ([Attempt.mk "sub1" 0 true 0]).any (fun a =>
      (comment_on_post ["sub1"] ["hello"] examplePost5.id a.username a.r1
        a.net_ok).1) = true := by decide
  rw [h1, h2]
  rfl

/-- Claim C7 (counterexample): the success notification does not carry the
comment text actually used.  With pool `["hello", "nice"]`, random indices
0 (for the posted comment) and 1 (for the notification's fresh draw), the
`media_comment` call uses "hello" while the notification reports "nice". -/
theorem C7_counterexample :
    process_new_post ["sub1"] ["sub1"] ["hello", "nice"] examplePost5 "main"
        [Attempt.mk "sub1" 0 true 1]
      = [Event.commentCall "5_1" "hello" "sub1",
         Event.notifySuccess "main" "C5" "photo" "nice" "sub1",
         Event.markCommented "main" "5" 1200] ∧
    ("hello" : String) ≠ "nice" := by
  constructor
  · rfl
  · decide

/-- Claim C7 (amended): every attempted comment action emits exactly one
notification, in attempt order, carrying the monitored identity name, post
code, content type and acting identity name; but the success notification's
comment text is an independent fresh random draw from the pool (index `r2`),
not necessarily the comment actually posted, and the failure notification's
error text is the fixed string "Comment posting failed", not the underlying
failure's error text. -/
theorem C7_amended_notifications (sub_clients enabled_subs predefined_comments : List String)
    (post : Media) (main : String) (attempts : List Attempt)
    (hsample : ∀ a ∈ attempts,
      a.username ∈ sub_clients.filter (fun u => decide (u ∈ enabled_subs))) :
    (process_new_post sub_clients enabled_subs predefined_comments post main
        attempts).filter Event.isNotify
      = attempts.map (fun a =>
          if (comment_on_post sub_clients predefined_comments post.id
              a.username a.r1 a.net_ok).1 then
            Event.notifySuccess main post.code (get_media_type_name post)
              ((select_random_comment predefined_comments a.r2).getD "")
              a.username
          else
            Event.notifyFailure main post.code (get_media_type_name post)
              "Comment posting failed" a.username) := by
  rw [process_new_post_eq]
  split
  · rename_i havail
    have hatt : attempts = [] := by
      cases attempts with
      | nil => rfl
      | cons a t =>
        have := hsample a (List.mem_cons_self a t)
        rw [havail] at this
        exact absurd this (List.not_mem_nil _)
    subst hatt
    rfl
  · rw [List.filter_append,
      process_attempts_notify sub_clients predefined_comments post.id main
        post.code (get_media_type_name post) attempts]
    have hmark : (if (process_attempts sub_clients predefined_comments post.id
          main post.code (get_media_type_name post) attempts).1 then
            [Event.markCommented main (toString post.pk) post.taken_at]
          else ([] : List Event)).filter Event.isNotify = [] := by
      split
      · rfl
      · rfl
    rw [hmark, List.append_nil]

/-- Witness for C7 (amended) at a concrete input: one failed attempt yields
exactly one failure notification with the fixed error text. -/
theorem C7_amended_witness :
    (process_new_post ["sub1"] ["sub1"] ["hello", "nice"] examplePost4 "main"
        [Attempt.mk "sub1" 1 false 0]).filter Event.isNotify
      = [Event.notifyFailure "main" "C4" "photo" "Comment posting failed"
          "sub1"] := by
  have h := C7_amended_notifications ["sub1"] ["sub1"] ["hello", "nice"]
    examplePost4 "main" [Attempt.mk "sub1" 1 false 0] (by decide)
  rw [h]
  rfl

/-- Claim C8: a fetch failure (the exception raised by `user_medias_v1`,
caught inside `get_recent_posts`) yields the empty post list for the cycle,
and consequently the Selector selects nothing for the identity this cycle.
No exception escapes: `get_recent_posts` is total and returns `[]` on the
error branch. -/
theorem C8_fetch_error (has_monitoring_client : Bool) (err : String)
    (allowed : List String) (d : CommentedData) :
    get_recent_posts has_monitoring_client (Except.error err) = [] ∧
    check_new_posts allowed d
      (get_recent_posts has_monitoring_client (Except.error err)) = [] := by
  have h1 : get_recent_posts has_monitoring_client (Except.error err) = [] := by
    unfold get_recent_posts
    cases has_monitoring_client <;> rfl
  refine ⟨h1, ?_⟩
  rw [h1]
  cases h : d.last_commented_post_id with
  | none => rw [check_new_posts_first_run allowed d [] h]; rfl
  | some pid0 => rw [check_new_posts_steady allowed d [] pid0 h]; rfl

/-- Claim C10: with an empty comment pool, every `comment_on_post` call
returns `False` (the `IndexError` from `random.choice([])` is caught by the
`except` branch and counted as a failed action — in the embedding the
function is total and takes the error branch), so no post is ever marked
commented in the ledger. -/
theorem C10_empty_pool (sub_clients : List String) (media_id username : String)
    (r : Nat) (net_ok : Bool) (enabled_subs : List String) (post : Media)
    (main : String) (attempts : List Attempt) :
    (comment_on_post sub_clients [] media_id username r net_ok).1 = false ∧
    (process_new_post sub_clients enabled_subs [] post main attempts).filter
      Event.isMark = [] := by
  refine ⟨comment_on_post_empty_pool sub_clients media_id username r net_ok, ?_⟩
  rw [process_new_post_eq]
  split
  · rfl
  · rw [List.filter_append]
    have h1 : (process_attempts sub_clients [] post.id main post.code
        (get_media_type_name post) attempts).2.filter Event.isMark = [] :=
      List.filter_eq_nil_iff.mpr (fun e he => by
        rw [process_attempts_no_mark sub_clients [] post.id main post.code
          (get_media_type_name post) attempts e he]
        simp)
    have h2 : (process_attempts sub_clients [] post.id main post.code
        (get_media_type_name post) attempts).1 = false := by
      rw [process_attempts_fst]
      rw [List.any_eq_false]
      intro a _
      rw [comment_on_post_empty_pool]
      simp
    rw [h1, h2]
    rfl

end AutoPoster
